import Mathlib

/-!
Verification of the nockchain EPYC mining modules against their
natural-language specification.

The development shallowly embeds the Rust sources:
  crates/zkvm-jetpack/src/form/math/base_optimized.rs
  crates/nockchain/src/mining_optimized.rs
  crates/nockchain/src/mining_epyc9b14.rs
  crates/nockchain/src/mining_epyc7k62_dual.rs

Machine integers (u64/u128) are modelled as Nat with explicit reduction
modulo 2^64 wherever the Rust code wraps; Rust panics/asserts are modelled
by Option results.
-/

set_option maxRecDepth 16384

namespace Nockchain

/-- 2^64, the u64 wrap modulus. -/
def U64 : Nat := 2 ^ 64

/-- The Goldilocks prime p = 2^64 - 2^32 + 1 (PRIME in base.rs). -/
def PRIME : Nat := 18446744069414584321

/-- From base_optimized.rs, reduce_128_optimized: split n into low/high u64
halves, subtract high * 0xFFFFFFFF (wrapping) from low adding PRIME back on
borrow, then add high and subtract PRIME on carry or overflow past PRIME. -/
def reduce_128_optimized (n : Nat) : Nat :=
  let low := n % U64
  let high := (n / 2 ^ 64) % U64
  let temp := (high * 0xFFFFFFFF) % U64
  let carry1 := low < temp
  let result0 := (low + U64 - temp) % U64
  let result := if carry1 then (result0 + PRIME) % U64 else result0
  let sum := result + high
  let final_result := sum % U64
  let carry2 := U64 ≤ sum
  if carry2 ∨ PRIME ≤ final_result then (final_result + U64 - PRIME) % U64
  else final_result

/-- Modelled from the spec: the scalar field addition badd of base.rs (the
file base.rs is not in the sources). Per spec 4.5: compute a + (p - b) on
u64 (as a - (p - b) with wraparound); if that underflows, the sum wrapped
past p, so add p back once. -/
def badd (a b : Nat) : Nat :=
  let neg_b := (PRIME + U64 - b % U64) % U64
  let diff := (a % U64 + U64 - neg_b) % U64
  if a % U64 < neg_b then (diff + PRIME) % U64 else diff

/-- Modelled from the spec: the scalar field multiplication bmul of base.rs
(not in the sources). Per spec 4.5: widen to a 128-bit product, then reduce;
the spec states the reduction satisfies reduce(n) = n mod p for all n. -/
def bmul (a b : Nat) : Nat :=
  ((a % U64) * (b % U64)) % PRIME

/-- One lane of badd_batch_avx512: neg_b = PRIME - b (wrapping sub), diff =
a - neg_b (wrapping sub), plus PRIME when a < neg_b (the underflow mask). -/
def badd_batch_elem (a b : Nat) : Nat :=
  let neg_b := (PRIME + U64 - b % U64) % U64
  let diff := (a % U64 + U64 - neg_b) % U64
  let correction := if a % U64 < neg_b then PRIME else 0
  (diff + correction) % U64

/-- From base_optimized.rs, badd_batch_avx512: asserts equal input lengths
and a length that is a multiple of SIMD_WIDTH = 8, then computes the lane
operation elementwise; none models the assertion failure (panic). The
result buffer has the same length as a (assert_eq a.len result.len). -/
def badd_batch_avx512 (a b : List Nat) : Option (List Nat) :=
  if a.length = b.length ∧ a.length % 8 = 0 then
    some (List.zipWith badd_batch_elem a b)
  else none

/-- One lane of bmul_batch_avx512: the full 128-bit product of the two
lanes, reduced by reduce_128_optimized. -/
def bmul_batch_elem (a b : Nat) : Nat :=
  reduce_128_optimized ((a % U64) * (b % U64))

/-- From base_optimized.rs, bmul_batch_avx512: asserts equal input lengths
and a length that is a multiple of SIMD_WIDTH = 8, then reduces each lane
product with reduce_128_optimized; none models the assertion failure. -/
def bmul_batch_avx512 (a b : List Nat) : Option (List Nat) :=
  if a.length = b.length ∧ a.length % 8 = 0 then
    some (List.zipWith bmul_batch_elem a b)
  else none

/-- From base_optimized.rs, BatchProcessor::new: the stored batch_size is
max_elements rounded up to a multiple of SIMD_WIDTH = 8. -/
def BatchProcessor.new_batch_size (max_elements : Nat) : Nat :=
  ((max_elements + 8 - 1) / 8) * 8

/-- From base_optimized.rs, BatchProcessor::process_batch_add: len is the
minimum of the two input lengths; the input is walked in chunks of
chunk_size = min batch_size len, each chunk zero-padded to a multiple of 8,
fed to badd_batch_avx512 (per-lane operation badd_batch_elem), and exactly
chunk_len lanes are copied back, so the returned vector is the elementwise
lane image of the common prefix of a and b (zipWith truncates at len).
chunk_size = 0 makes the Rust iterator step_by(0) panic, modelled none. -/
def process_batch_add (batch_size : Nat) (a b : List Nat) : Option (List Nat) :=
  let len := min a.length b.length
  let chunk_size := min batch_size len
  if chunk_size = 0 then none
  else some (List.zipWith badd_batch_elem a b)

/-- From base_optimized.rs, BatchProcessor::process_batch_mul: same chunked
traversal as process_batch_add with bmul_batch_avx512 (per-lane operation
bmul_batch_elem); truncates to the common prefix of a and b. -/
def process_batch_mul (batch_size : Nat) (a b : List Nat) : Option (List Nat) :=
  let len := min a.length b.length
  let chunk_size := min batch_size len
  if chunk_size = 0 then none
  else some (List.zipWith bmul_batch_elem a b)

/-- From base_optimized.rs, poly_eval_optimized: 0 on an empty coefficient
slice; otherwise Horner starting from the last coefficient, folding over
the remaining coefficients in reverse order with badd (bmul result x) c. -/
def poly_eval_optimized (coeffs : List Nat) (x : Nat) : Nat :=
  if coeffs.isEmpty then 0
  else
    (coeffs.reverse.drop 1).foldl
      (fun result coeff => badd (bmul result x) coeff) (coeffs.getLastD 0)

/-- The AVX-512 addition lane computes exactly the scalar badd: both form
a - (PRIME - b) with wraparound and add PRIME back on underflow. -/
lemma badd_batch_elem_eq_badd (a b : Nat) : badd_batch_elem a b = badd a b := by
  unfold badd_batch_elem badd
  by_cases h : a % U64 < (PRIME + U64 - b % U64) % U64 <;> simp [h]

/-- C1: the claim states reduce_128_optimized(n) = n mod p for all 128-bit
n, in particular on the test inputs including (2^64 - 1)^2. The code
violates this (and its own test test_reduce_128_optimized) at
n = (2^64 - 1)^2: it returns 8589934589 while n mod p = 18446744056529682436. -/
theorem reduce_128_optimized_fails_own_test :
    reduce_128_optimized ((2 ^ 64 - 1) * (2 ^ 64 - 1)) = 8589934589
    ∧ ((2 ^ 64 - 1) * (2 ^ 64 - 1)) % PRIME = 18446744056529682436
    ∧ (8589934589 : Nat) ≠ 18446744056529682436 := by
  refine ⟨by decide, by decide, by decide⟩

/-- C3: the claim states the vectorized batch paths agree elementwise with
the scalar add/mul/reduce path on every width-8 input. The mul path
violates this: at a = b = eight copies of p - 1 the vectorized lane yields
reduce_128_optimized((p-1)^2) = 18446744052234715138 while the scalar path
yields (p-1)^2 mod p = 1 (the spec states the scalar reduce is exact). -/
theorem bmul_batch_avx512_disagrees_with_scalar :
    bmul_batch_avx512 (List.replicate 8 (PRIME - 1)) (List.replicate 8 (PRIME - 1))
      = some (List.replicate 8 18446744052234715138)
    ∧ bmul (PRIME - 1) (PRIME - 1) = 1
    ∧ (18446744052234715138 : Nat) ≠ 1 := by
  refine ⟨by decide, by decide, by decide⟩

/-- Indexing a zipWith through getD, for indices below both lengths. -/
lemma getD_zipWith_of_lt (f : Nat → Nat → Nat) :
    ∀ (a b : List Nat) (i : Nat), i < min a.length b.length →
      (List.zipWith f a b).getD i 0 = f (a.getD i 0) (b.getD i 0) := by
  intro a
  induction a with
  | nil => intro b i h; simp at h
  | cons x xs ih =>
    intro b i h
    cases b with
    | nil => simp at h
    | cons y ys =>
      cases i with
      | zero => simp
      | succ j =>
        simp only [List.zipWith_cons_cons, List.getD_cons_succ]
        exact ih ys j (by simp at h; omega)

/-- C4 counterexample: called on inputs of mismatched lengths 8 and 16,
process_batch_add (with the batch size of BatchProcessor::new(16), as in
the crate's own test) does not abort: it returns the elementwise sums of
the common prefix, i.e. it silently truncates. -/
theorem process_batch_add_truncates_on_mismatch :
    process_batch_add (BatchProcessor.new_batch_size 16)
        [1, 2, 3, 4, 5, 6, 7, 8]
        [10, 11, 12, 13, 14, 15, 16, 17, 18, 19, 20, 21, 22, 23, 24, 25]
      = some [11, 13, 15, 17, 19, 21, 23, 25]
    ∧ ([1, 2, 3, 4, 5, 6, 7, 8] : List Nat).length
        ≠ ([10, 11, 12, 13, 14, 15, 16, 17, 18, 19, 20, 21, 22, 23, 24, 25] : List Nat).length := by
  refine ⟨by decide, by decide⟩

/-- C4 amended: the inner AVX-512 kernels badd_batch_avx512 and
bmul_batch_avx512 do abort (assert) on mismatched lengths or a length not
a multiple of the vector width 8; but BatchProcessor::process_batch_add and
process_batch_mul silently truncate to the common prefix of their two
inputs, returning min(len a, len b) elementwise results (they abort only
when the common length or the batch size is 0, via step_by(0)). -/
theorem batch_ops_assert_and_truncate :
    (∀ a b : List Nat, a.length ≠ b.length →
      badd_batch_avx512 a b = none ∧ bmul_batch_avx512 a b = none)
    ∧ (∀ a b : List Nat, a.length % 8 ≠ 0 →
      badd_batch_avx512 a b = none ∧ bmul_batch_avx512 a b = none)
    ∧ (∀ (bs : Nat) (a b : List Nat), 0 < min bs (min a.length b.length) →
      ∃ r, process_batch_add bs a b = some r
        ∧ r.length = min a.length b.length
        ∧ ∀ i, i < r.length → r.getD i 0 = badd (a.getD i 0) (b.getD i 0))
    ∧ (∀ (bs : Nat) (a b : List Nat), 0 < min bs (min a.length b.length) →
      ∃ r, process_batch_mul bs a b = some r
        ∧ r.length = min a.length b.length
        ∧ ∀ i, i < r.length →
            r.getD i 0 = reduce_128_optimized ((a.getD i 0 % U64) * (b.getD i 0 % U64))) := by
  refine ⟨?_, ?_, ?_, ?_⟩
  · intro a b h
    refine ⟨?_, ?_⟩
    · unfold badd_batch_avx512; rw [if_neg]; tauto
    · unfold bmul_batch_avx512; rw [if_neg]; tauto
  · intro a b h
    refine ⟨?_, ?_⟩
    · unfold badd_batch_avx512; rw [if_neg]; tauto
    · unfold bmul_batch_avx512; rw [if_neg]; tauto
  · intro bs a b h
    refine ⟨List.zipWith badd_batch_elem a b, ?_, ?_, ?_⟩
    · unfold process_batch_add
      rw [if_neg (by omega)]
    · simp [List.length_zipWith]
    · intro i hi
      rw [List.length_zipWith] at hi
      rw [getD_zipWith_of_lt badd_batch_elem a b i hi, badd_batch_elem_eq_badd]
  · intro bs a b h
    refine ⟨List.zipWith bmul_batch_elem a b, ?_, ?_, ?_⟩
    · unfold process_batch_mul
      rw [if_neg (by omega)]
    · simp [List.length_zipWith]
    · intro i hi
      rw [List.length_zipWith] at hi
      rw [getD_zipWith_of_lt bmul_batch_elem a b i hi]
      rfl

/-- C4 amended, witness: the AVX-512 add kernel aborts on a concrete
length mismatch, and at batch size 8 and inputs of lengths 2 and 1,
process_batch_add returns a length-1 result. -/
theorem batch_ops_assert_and_truncate_witness :
    ([1, 2] : List Nat).length ≠ ([3] : List Nat).length
    ∧ badd_batch_avx512 [1, 2] [3] = none
    ∧ 0 < min 8 (min ([1, 2] : List Nat).length ([3] : List Nat).length)
    ∧ ∃ r, process_batch_add 8 [1, 2] [3] = some r
        ∧ r.length = min ([1, 2] : List Nat).length ([3] : List Nat).length
        ∧ ∀ i, i < r.length →
            r.getD i 0 = badd (([1, 2] : List Nat).getD i 0) (([3] : List Nat).getD i 0) :=
  ⟨by decide, (batch_ops_assert_and_truncate.1 [1, 2] [3] (by decide)).1, by decide,
   batch_ops_assert_and_truncate.2.2.1 8 [1, 2] [3] (by decide)⟩

/-- C8: poly_eval_optimized is Horner evaluation with the field add and
mul: it is 0 on the empty coefficient list, the coefficient itself on a
singleton, and on c :: cs (little-endian coefficients) it satisfies the
Horner recurrence badd (bmul (poly_eval cs x) x) c. -/
theorem poly_eval_optimized_horner :
    (∀ x, poly_eval_optimized [] x = 0)
    ∧ (∀ c x, poly_eval_optimized [c] x = c)
    ∧ (∀ c cs x, cs ≠ [] →
        poly_eval_optimized (c :: cs) x
          = badd (bmul (poly_eval_optimized cs x) x) c) := by
  refine ⟨fun x => rfl, fun c x => rfl, ?_⟩
  intro c cs x hne
  obtain ⟨a, l, hrev⟩ : ∃ a l, cs.reverse = a :: l := by
    cases h : cs.reverse with
    | nil =>
      exact absurd (by simpa using congrArg List.reverse h) hne
    | cons a l => exact ⟨a, l, rfl⟩
  have hcs : cs = l.reverse ++ [a] := by
    rw [← List.reverse_reverse cs, hrev, List.reverse_cons]
  subst hcs
  have hlast : (c :: (l.reverse ++ [a])).getLast? = some a := by
    rw [← List.cons_append]
    exact List.getLast?_concat _
  simp [poly_eval_optimized, List.foldl_append, List.getLastD_concat,
    List.getLastD_cons, hlast]

/-- C8 witness for the Horner-step hypothesis: on coefficients [5, 7] the
recurrence holds at x = 3. -/
theorem poly_eval_optimized_horner_witness :
    ([7] : List Nat) ≠ []
    ∧ poly_eval_optimized [5, 7] 3
        = badd (bmul (poly_eval_optimized [7] 3) 3) 5 :=
  ⟨by decide, poly_eval_optimized_horner.2.2 5 [7] 3 (by decide)⟩

/-! Coordinator loop of mining_optimized.rs (create_optimized_mining_driver).
A delivered attempt result is a noun whose head is either the atom poke
(the serf poke was cancelled), or a mine-result triple [head res tail], or
something else. We record which shape arrived together with res, and tag
the result with the generation (candidate publication count) the attempt
was computed against — a ghost field: the Rust result nouns carry no such
tag, and the handler never consults it. -/

/-- Shape of the head of a result noun delivered to the coordinator loop. -/
inductive ResultHead where
  | poke : ResultHead
  | mineResult : ResultHead
  | other : ResultHead
deriving DecidableEq

/-- A completed mining attempt as seen by the coordinator loop, tagged with
the (ghost) generation of the candidate it was computed against. -/
structure MinerResult where
  gen : Nat
  head : ResultHead
  res : Nat
deriving DecidableEq

/-- From mining_optimized.rs, the result branch of the tokio select loop:
returns true exactly when the branch pokes a Mined effect upward, i.e. when
the head is mine-result and res equals 0; a poke head (cancelled attempt)
only restarts the attempt. currentGen is the generation of the
currently-published candidate; the code never reads it in this branch. -/
def handle_mining_result (currentGen : Nat) (r : MinerResult) : Bool :=
  match r.head with
  | ResultHead.poke => false
  | ResultHead.mineResult => if r.res = 0 then true else false
  | ResultHead.other => false

/-- C2 counterexample: a solution (mine-result, res = 0) computed against
generation 1 is still relayed upward when the current generation is 2 —
the coordinator has no generation-tag filter. -/
theorem handle_mining_result_relays_stale_solution :
    handle_mining_result 2 ⟨1, ResultHead.mineResult, 0⟩ = true
    ∧ (1 : Nat) ≠ 2 := by
  refine ⟨rfl, by decide⟩

/-- C2 amended: a Mined poke is emitted exactly when the delivered result
is a mine-result with res = 0, independently of the current generation and
of the generation the attempt was computed against; results whose poke was
cancelled (head poke) are discarded without emitting. -/
theorem handle_mining_result_ignores_generation :
    ∀ (g1 g2 : Nat) (r : MinerResult),
      handle_mining_result g1 r = handle_mining_result g2 r
      ∧ (handle_mining_result g1 r = true
          ↔ r.head = ResultHead.mineResult ∧ r.res = 0)
      ∧ (r.head = ResultHead.poke → handle_mining_result g1 r = false) := by
  intro g1 g2 r
  refine ⟨rfl, ?_, ?_⟩
  · unfold handle_mining_result
    cases h : r.head with
    | poke => simp [h]
    | mineResult => by_cases hr : r.res = 0 <;> simp [h, hr]
    | other => simp [h]
  · intro h
    unfold handle_mining_result
    rw [h]

/-- C2 amended, witness: at generations 3 and 4 and a concrete solution
result, the emission decision matches the res = 0 characterization, and a
concrete cancelled (poke-headed) result is discarded. -/
theorem handle_mining_result_ignores_generation_witness :
    handle_mining_result 3 ⟨1, ResultHead.mineResult, 0⟩
        = handle_mining_result 4 ⟨1, ResultHead.mineResult, 0⟩
    ∧ (handle_mining_result 3 ⟨1, ResultHead.mineResult, 0⟩ = true
        ↔ (⟨1, ResultHead.mineResult, 0⟩ : MinerResult).head = ResultHead.mineResult
          ∧ (⟨1, ResultHead.mineResult, 0⟩ : MinerResult).res = 0)
    ∧ (⟨1, ResultHead.poke, 0⟩ : MinerResult).head = ResultHead.poke
    ∧ handle_mining_result 3 ⟨1, ResultHead.poke, 0⟩ = false :=
  ⟨(handle_mining_result_ignores_generation 3 4 ⟨1, ResultHead.mineResult, 0⟩).1,
   (handle_mining_result_ignores_generation 3 4 ⟨1, ResultHead.mineResult, 0⟩).2.1,
   rfl,
   (handle_mining_result_ignores_generation 3 4 ⟨1, ResultHead.poke, 0⟩).2.2 rfl⟩

/-- From mining_optimized.rs, generate_optimized_nonce: the per-thread seed
is thread_id * 0x517cc1b727220a95 (wrapping) xor base_entropy; the eight
produced nonce values are (seed + i * 0x9e3779b97f4a7c15 (wrapping)) xor a
fresh RNG draw, reduced modulo PRIME. The RNG is an oracle i -> u64. -/
def generate_optimized_nonce_values
    (thread_id base_entropy : Nat) (rng : Nat → Nat) : List Nat :=
  let thread_entropy :=
    ((thread_id % U64) * 0x517cc1b727220a95 % U64) ^^^ (base_entropy % U64)
  (List.range 8).map (fun i =>
    let entropy := (thread_entropy + i * 0x9e3779b97f4a7c15 % U64) % U64
    (entropy ^^^ (rng i % U64)) % PRIME)

/-- C9: every nonce value produced by generate_optimized_nonce is strictly
below PRIME for every thread id, entropy input and RNG outcome, and each
value is derived from the seed thread_id * 0x517cc1b727220a95 xor
base_entropy (the fixed multiplicative mixing constant). -/
theorem generate_optimized_nonce_in_field :
    ∀ (thread_id base_entropy : Nat) (rng : Nat → Nat),
      (∀ v ∈ generate_optimized_nonce_values thread_id base_entropy rng,
        v < PRIME)
      ∧ (∀ i, i < 8 →
          (generate_optimized_nonce_values thread_id base_entropy rng).getD i 0
            = (((((thread_id % U64) * 0x517cc1b727220a95 % U64)
                    ^^^ (base_entropy % U64))
                  + i * 0x9e3779b97f4a7c15 % U64) % U64
                ^^^ (rng i % U64)) % PRIME) := by
  intro thread_id base_entropy rng
  constructor
  · intro v hv
    simp only [generate_optimized_nonce_values, List.mem_map] at hv
    obtain ⟨i, _, rfl⟩ := hv
    exact Nat.mod_lt _ (by decide)
  · intro i hi
    simp only [generate_optimized_nonce_values]
    rw [List.getD_eq_getElem?_getD, List.getElem?_map,
      List.getElem?_range hi]
    rfl

/-- C9 witness: with thread id 0, entropy 0 and the zero RNG, the value 0
is among the generated nonces, hence below PRIME; index 0 satisfies the
seed formula. -/
theorem generate_optimized_nonce_in_field_witness :
    (0 ∈ generate_optimized_nonce_values 0 0 (fun _ => 0))
    ∧ (0 : Nat) < PRIME
    ∧ (generate_optimized_nonce_values 0 0 (fun _ => 0)).getD 0 0
        = (((((0 % U64) * 0x517cc1b727220a95 % U64) ^^^ (0 % U64))
              + 0 * 0x9e3779b97f4a7c15 % U64) % U64
            ^^^ ((fun _ : Nat => (0 : Nat)) 0 % U64)) % PRIME :=
  ⟨by decide,
   (generate_optimized_nonce_in_field 0 0 (fun _ => 0)).1 0 (by decide),
   (generate_optimized_nonce_in_field 0 0 (fun _ => 0)).2 0 (by decide)⟩

/-- From mining_epyc7k62_dual.rs: the atomic counters of
DualSocketMiningStats, modelled as plain naturals (claims about them are
read under sequential execution of the update calls). -/
structure DualSocketMiningStats where
  hash_rate_socket0 : Nat
  hash_rate_socket1 : Nat
  total_hash_rate : Nat
  solutions_found : Nat
  threads_active : Nat
  numa_balance_ratio : Nat
  cross_socket_migrations : Nat
  zen3_cache_hits : Nat
deriving DecidableEq

/-- From mining_epyc7k62_dual.rs, DualSocketMiningStats::new: all counters
start at 0 except numa_balance_ratio which starts at 100. -/
def DualSocketMiningStats.new : DualSocketMiningStats :=
  ⟨0, 0, 0, 0, 0, 100, 0, 0⟩

/-- From mining_epyc7k62_dual.rs, update_socket_hash_rate: store the rate
into the matching per-socket field (sockets other than 0 and 1 store
nothing), then recompute total_hash_rate as the sum of the two per-socket
fields. -/
def DualSocketMiningStats.update_socket_hash_rate
    (s : DualSocketMiningStats) (socket rate : Nat) : DualSocketMiningStats :=
  let s1 :=
    if socket = 0 then { s with hash_rate_socket0 := rate }
    else if socket = 1 then { s with hash_rate_socket1 := rate }
    else s
  { s1 with total_hash_rate := s1.hash_rate_socket0 + s1.hash_rate_socket1 }

/-- C10: total_hash_rate equals hash_rate_socket0 + hash_rate_socket1
after new() and after every (sequentially executed) call to
update_socket_hash_rate, from any state; a call with a socket index other
than 0 or 1 leaves both per-socket rates unchanged. -/
theorem total_hash_rate_invariant :
    (DualSocketMiningStats.new.total_hash_rate
      = DualSocketMiningStats.new.hash_rate_socket0
        + DualSocketMiningStats.new.hash_rate_socket1)
    ∧ (∀ (s : DualSocketMiningStats) (socket rate : Nat),
        (s.update_socket_hash_rate socket rate).total_hash_rate
          = (s.update_socket_hash_rate socket rate).hash_rate_socket0
            + (s.update_socket_hash_rate socket rate).hash_rate_socket1)
    ∧ (∀ (s : DualSocketMiningStats) (socket rate : Nat),
        socket ≠ 0 → socket ≠ 1 →
          (s.update_socket_hash_rate socket rate).hash_rate_socket0
              = s.hash_rate_socket0
            ∧ (s.update_socket_hash_rate socket rate).hash_rate_socket1
              = s.hash_rate_socket1) := by
  refine ⟨rfl, ?_, ?_⟩
  · intro s socket rate
    unfold DualSocketMiningStats.update_socket_hash_rate
    by_cases h0 : socket = 0 <;> by_cases h1 : socket = 1 <;> simp [h0, h1]
  · intro s socket rate h0 h1
    unfold DualSocketMiningStats.update_socket_hash_rate
    simp [h0, h1]

/-- C10 witness: a call with socket index 7 leaves both per-socket rates
of the fresh stats unchanged. -/
theorem total_hash_rate_invariant_witness :
    (7 : Nat) ≠ 0 ∧ (7 : Nat) ≠ 1
    ∧ ((DualSocketMiningStats.new.update_socket_hash_rate 7 42).hash_rate_socket0
          = DualSocketMiningStats.new.hash_rate_socket0
        ∧ (DualSocketMiningStats.new.update_socket_hash_rate 7 42).hash_rate_socket1
          = DualSocketMiningStats.new.hash_rate_socket1) :=
  ⟨by decide, by decide,
   total_hash_rate_invariant.2.2 DualSocketMiningStats.new 7 42
     (by decide) (by decide)⟩

/-! CPU placement. mining_epyc9b14.rs: 4 CCDs of 8 cores, 64 logical cpus
(EPYC_9B14_THREADS), MINING_THREADS = 62 (2 reserved for the system);
start_mining spawns MINING_THREADS / 4 workers per CCD. -/

/-- From mining_epyc9b14.rs, EpycMiner::calculate_cpu_affinity: physical
core ccd_id * 8 + thread_id mod 8; thread ids below 8 use the physical
core, larger ids its hyperthread sibling at +32 (EPYC_9B14_CORES). -/
def calculate_cpu_affinity (ccd_id thread_id : Nat) : Nat :=
  let physical_core := ccd_id * 8 + thread_id % 8
  if thread_id < 8 then physical_core else physical_core + 32

/-- From mining_epyc9b14.rs, start_mining: the multiset of CPU ids handed
to the spawned workers — MINING_THREADS / EPYC_9B14_CCDS = 62 / 4 workers
for each of the 4 CCDs. -/
def epyc9b14_assigned_cpus : List Nat :=
  (List.range 4).flatMap (fun ccd =>
    (List.range (62 / 4)).map (fun tid => calculate_cpu_affinity ccd tid))

/-! mining_epyc7k62_dual.rs: detect_numa_topology fixes the socket ranges
(0, 95) and (96, 191); 192 logical cpus, MINING_THREADS = 188 (4 reserved);
start_socket_mining_group spawns threads_per_socket = 188 / 2 workers per
socket at cpu_id = cpu_start + thread_id mod cpus_per_socket. -/

/-- From mining_epyc7k62_dual.rs, detect_numa_topology: the per-socket
(start_cpu, end_cpu) ranges. -/
def dual_socket_cpu_ranges : List (Nat × Nat) := [(0, 95), (96, 191)]

/-- From mining_epyc7k62_dual.rs, start_socket_mining_group: worker
thread_id of a socket is pinned to cpu_start + thread_id mod
cpus_per_socket, with cpus_per_socket = cpu_end - cpu_start + 1. -/
def dual_socket_cpu_id (socket thread_id : Nat) : Nat :=
  let r := dual_socket_cpu_ranges.getD socket (0, 0)
  r.1 + thread_id % (r.2 - r.1 + 1)

/-- From mining_epyc7k62_dual.rs, start_mining: the multiset of CPU ids
handed to the spawned workers — 188 / 2 workers for each socket. -/
def dual_socket_assigned_cpus : List Nat :=
  (List.range 2).flatMap (fun socket =>
    (List.range (188 / 2)).map (fun tid => dual_socket_cpu_id socket tid))

/-- C5 counterexample: for the 9B14 miner's configuration (64 logical
cpus, reserved margin 2, 4 groups) the union of assigned CPU ids has size
60, not total_cpus - reserved_margin = 62: integer division spawns only
4 * (62 / 4) = 60 workers. -/
theorem epyc9b14_union_size_mismatch :
    epyc9b14_assigned_cpus.dedup.length = 60
    ∧ 64 - 2 = 62
    ∧ (60 : Nat) ≠ 62 := by
  refine ⟨by decide, by decide, by decide⟩

/-- C5 amended: assigned CPU ids are pairwise disjoint across groups in
both miners; the dual-socket miner realizes the in-group mapping
cpu = range_start + worker_index mod range_length and covers exactly
192 - 4 = 188 distinct CPUs, while the 9B14 miner covers
4 * (62 / 4) = 60 distinct CPUs — short of total - reserved = 62 because
the per-group worker count 62 / 4 truncates. -/
theorem cpu_partition_amended :
    (∀ c1 < 4, ∀ t1 < 62 / 4, ∀ c2 < 4, ∀ t2 < 62 / 4, c1 ≠ c2 →
      calculate_cpu_affinity c1 t1 ≠ calculate_cpu_affinity c2 t2)
    ∧ epyc9b14_assigned_cpus.dedup.length = 4 * (62 / 4)
    ∧ (∀ t1 t2, dual_socket_cpu_id 0 t1 ≠ dual_socket_cpu_id 1 t2)
    ∧ dual_socket_assigned_cpus.dedup.length = 192 - 4
    ∧ (∀ socket tid,
        dual_socket_cpu_id socket tid
          = (dual_socket_cpu_ranges.getD socket (0, 0)).1
            + tid % ((dual_socket_cpu_ranges.getD socket (0, 0)).2
                - (dual_socket_cpu_ranges.getD socket (0, 0)).1 + 1)) := by
  refine ⟨?_, by decide, ?_, by decide, fun socket tid => rfl⟩
  · intro c1 hc1 t1 ht1 c2 hc2 t2 ht2 hne
    unfold calculate_cpu_affinity
    dsimp only
    split_ifs <;> omega
  · intro t1 t2
    have e0 : dual_socket_cpu_id 0 t1 = 0 + t1 % 96 := rfl
    have e1 : dual_socket_cpu_id 1 t2 = 96 + t2 % 96 := rfl
    omega

/-- C5 amended, witness: CCD 0 worker 0 and CCD 1 worker 0 land on
different CPUs. -/
theorem cpu_partition_amended_witness :
    (0 : Nat) < 4 ∧ (0 : Nat) < 62 / 4 ∧ (1 : Nat) < 4 ∧ (0 : Nat) ≠ 1
    ∧ calculate_cpu_affinity 0 0 ≠ calculate_cpu_affinity 1 0 :=
  ⟨by decide, by decide, by decide, by decide,
   cpu_partition_amended.1 0 (by decide) 0 (by decide) 1 (by decide) 0
     (by decide) (by decide)⟩

/-- From mining_epyc7k62_dual.rs, DualSocketMiningStats::get_numa_balance_ratio:
0 when the socket-1 rate is 0, otherwise (socket0 / socket1) * 100. The
Rust f64 arithmetic is modelled exactly over the rationals. -/
def get_numa_balance_ratio (socket0_rate socket1_rate : Nat) : ℚ :=
  if socket1_rate = 0 then 0
  else ((socket0_rate : ℚ) / (socket1_rate : ℚ)) * 100

/-- From mining_epyc7k62_dual.rs, start_cross_socket_balancer (one timer
tick): when the balance ratio is below 80 or above 120 it prints a
diagnostic and increments cross_socket_migrations; otherwise the counter
is left unchanged. -/
def cross_socket_balancer_step (migrations socket0_rate socket1_rate : Nat) : Nat :=
  if get_numa_balance_ratio socket0_rate socket1_rate < 80
      ∨ 120 < get_numa_balance_ratio socket0_rate socket1_rate then
    migrations + 1
  else migrations

/-- C6: the balance ratio is 0 when the socket-1 rate is 0 (no division by
zero) and 100 * r0 / r1 otherwise, and one balancer tick increments the
migration counter exactly when the ratio is below 80 or above 120. -/
theorem balance_ratio_spec :
    ∀ (r0 r1 m : Nat),
      (r1 = 0 → get_numa_balance_ratio r0 r1 = 0)
      ∧ (r1 ≠ 0 → get_numa_balance_ratio r0 r1 = 100 * (r0 : ℚ) / (r1 : ℚ))
      ∧ (cross_socket_balancer_step m r0 r1 = m + 1
          ↔ (get_numa_balance_ratio r0 r1 < 80
              ∨ 120 < get_numa_balance_ratio r0 r1))
      ∧ (cross_socket_balancer_step m r0 r1 = m
          ↔ ¬(get_numa_balance_ratio r0 r1 < 80
              ∨ 120 < get_numa_balance_ratio r0 r1)) := by
  intro r0 r1 m
  refine ⟨fun h => by simp [get_numa_balance_ratio, h], fun h => ?_, ?_, ?_⟩
  · simp only [get_numa_balance_ratio, if_neg h]
    ring
  · unfold cross_socket_balancer_step
    split_ifs with h <;> simp [h]
  · unfold cross_socket_balancer_step
    split_ifs with h <;> simp [h]

/-- C6 witness: at rates r0 = 30, r1 = 100 the ratio is 100 * 30 / 100 and
a balancer tick increments the migration counter from 5 to 6. -/
theorem balance_ratio_spec_witness :
    get_numa_balance_ratio 7 0 = 0
    ∧ (100 : Nat) ≠ 0
    ∧ get_numa_balance_ratio 30 100 = 100 * (30 : ℚ) / (100 : ℚ)
    ∧ (cross_socket_balancer_step 5 30 100 = 5 + 1
        ↔ (get_numa_balance_ratio 30 100 < 80
            ∨ 120 < get_numa_balance_ratio 30 100)) :=
  ⟨(balance_ratio_spec 7 0 0).1 rfl, by decide,
   (balance_ratio_spec 30 100 5).2.1 (by decide),
   (balance_ratio_spec 30 100 5).2.2.1⟩

/-! Worker self-restart. Both zen4_optimized_mining_loop
(mining_epyc9b14.rs) and dual_socket_mining_loop (mining_epyc7k62_dual.rs)
run: while not stop-flag, do a hash batch, increment iteration_count, and
when thread_restart_enabled and iteration_count % 100000 == 0 and the
elapsed wall time exceeds candidate_update_interval, break. The claim
assumes the stop flag is never set, so the while condition always passes;
hashing, telemetry and the periodic sleeps do not affect control flow and
are dropped. elapsed i is the wall time observed at iteration i; fuel
bounds the modelled iterations (none = still running after fuel
iterations); the value returned is the iteration count at loop exit. -/

/-- From mining_epyc9b14.rs, zen4_optimized_mining_loop with the stop flag
never set (see the section comment). -/
def zen4_optimized_mining_loop (restart_enabled : Bool) (interval : Nat)
    (elapsed : Nat → Nat) : Nat → Nat → Option Nat
  | 0, _ => none
  | fuel + 1, iteration_count =>
    let ic := iteration_count + 1
    if restart_enabled = true ∧ ic % 100000 = 0 ∧ interval < elapsed ic then
      some ic
    else zen4_optimized_mining_loop restart_enabled interval elapsed fuel ic

/-- From mining_epyc7k62_dual.rs, dual_socket_mining_loop with the stop
flag never set; its exit logic is identical to the zen4 loop (the extra
hash-rate report every 50000 iterations does not touch control flow). -/
def dual_socket_mining_loop (restart_enabled : Bool) (interval : Nat)
    (elapsed : Nat → Nat) : Nat → Nat → Option Nat
  | 0, _ => none
  | fuel + 1, iteration_count =>
    let ic := iteration_count + 1
    if restart_enabled = true ∧ ic % 100000 = 0 ∧ interval < elapsed ic then
      some ic
    else dual_socket_mining_loop restart_enabled interval elapsed fuel ic

/-- With self-restart enabled, the zen4 loop started at iteration_count i
exits at the first iteration after i that is a multiple of 100000 with
elapsed time beyond the interval, provided one exists within fuel. -/
lemma zen4_loop_first_exit (interval : Nat) (elapsed : Nat → Nat) :
    ∀ fuel i,
      (∃ k, i < k ∧ k ≤ i + fuel ∧ k % 100000 = 0 ∧ interval < elapsed k) →
      ∃ j, i < j ∧ j ≤ i + fuel ∧ j % 100000 = 0 ∧ interval < elapsed j
        ∧ zen4_optimized_mining_loop true interval elapsed fuel i = some j
        ∧ ∀ m, i < m → m < j → ¬(m % 100000 = 0 ∧ interval < elapsed m) := by
  intro fuel
  induction fuel with
  | zero =>
    rintro i ⟨k, hik, hkb, -, -⟩
    omega
  | succ n ih =>
    rintro i ⟨k, hik, hkb, hkm, hke⟩
    by_cases hc : (i + 1) % 100000 = 0 ∧ interval < elapsed (i + 1)
    · refine ⟨i + 1, by omega, by omega, hc.1, hc.2, ?_, fun m h1 h2 => by omega⟩
      show (if true = true ∧ (i + 1) % 100000 = 0 ∧ interval < elapsed (i + 1)
            then some (i + 1)
            else zen4_optimized_mining_loop true interval elapsed n (i + 1))
          = some (i + 1)
      rw [if_pos ⟨rfl, hc⟩]
    · have hk1 : k ≠ i + 1 := by
        intro he
        exact hc (he ▸ ⟨hkm, hke⟩)
      obtain ⟨j, hj1, hj2, hjm, hje, hrun, hmin⟩ :=
        ih (i + 1) ⟨k, by omega, by omega, hkm, hke⟩
      refine ⟨j, by omega, by omega, hjm, hje, ?_, ?_⟩
      · show (if true = true ∧ (i + 1) % 100000 = 0 ∧ interval < elapsed (i + 1)
              then some (i + 1)
              else zen4_optimized_mining_loop true interval elapsed n (i + 1))
            = some j
        rw [if_neg fun h => hc ⟨h.2.1, h.2.2⟩]
        exact hrun
      · intro m hm1 hm2
        rcases Nat.lt_or_ge m (i + 2) with h | h
        · have hm : m = i + 1 := by omega
          exact hm ▸ hc
        · exact hmin m (by omega) hm2

/-- Same first-exit property for the dual-socket loop. -/
lemma dual_loop_first_exit (interval : Nat) (elapsed : Nat → Nat) :
    ∀ fuel i,
      (∃ k, i < k ∧ k ≤ i + fuel ∧ k % 100000 = 0 ∧ interval < elapsed k) →
      ∃ j, i < j ∧ j ≤ i + fuel ∧ j % 100000 = 0 ∧ interval < elapsed j
        ∧ dual_socket_mining_loop true interval elapsed fuel i = some j
        ∧ ∀ m, i < m → m < j → ¬(m % 100000 = 0 ∧ interval < elapsed m) := by
  intro fuel
  induction fuel with
  | zero =>
    rintro i ⟨k, hik, hkb, -, -⟩
    omega
  | succ n ih =>
    rintro i ⟨k, hik, hkb, hkm, hke⟩
    by_cases hc : (i + 1) % 100000 = 0 ∧ interval < elapsed (i + 1)
    · refine ⟨i + 1, by omega, by omega, hc.1, hc.2, ?_, fun m h1 h2 => by omega⟩
      show (if true = true ∧ (i + 1) % 100000 = 0 ∧ interval < elapsed (i + 1)
            then some (i + 1)
            else dual_socket_mining_loop true interval elapsed n (i + 1))
          = some (i + 1)
      rw [if_pos ⟨rfl, hc⟩]
    · have hk1 : k ≠ i + 1 := by
        intro he
        exact hc (he ▸ ⟨hkm, hke⟩)
      obtain ⟨j, hj1, hj2, hjm, hje, hrun, hmin⟩ :=
        ih (i + 1) ⟨k, by omega, by omega, hkm, hke⟩
      refine ⟨j, by omega, by omega, hjm, hje, ?_, ?_⟩
      · show (if true = true ∧ (i + 1) % 100000 = 0 ∧ interval < elapsed (i + 1)
              then some (i + 1)
              else dual_socket_mining_loop true interval elapsed n (i + 1))
            = some j
        rw [if_neg fun h => hc ⟨h.2.1, h.2.2⟩]
        exact hrun
      · intro m hm1 hm2
        rcases Nat.lt_or_ge m (i + 2) with h | h
        · have hm : m = i + 1 := by omega
          exact hm ▸ hc
        · exact hmin m (by omega) hm2

/-- C7: with self-restart enabled and the stop flag never set, both worker
loops still terminate: if some positive multiple k of 100000 has elapsed
time beyond the refresh interval, each loop (run with fuel k) exits, and it
exits exactly at the first 100000-multiple whose elapsed time exceeds the
interval — a worker never runs unboundedly long against one candidate. -/
theorem mining_loops_exit_at_first_refresh_check
    (interval : Nat) (elapsed : Nat → Nat) (k : Nat)
    (hk0 : 0 < k) (hkm : k % 100000 = 0) (hke : interval < elapsed k) :
    ∃ j, 0 < j ∧ j % 100000 = 0 ∧ j ≤ k ∧ interval < elapsed j
      ∧ zen4_optimized_mining_loop true interval elapsed k 0 = some j
      ∧ dual_socket_mining_loop true interval elapsed k 0 = some j
      ∧ ∀ m, 0 < m → m % 100000 = 0 → interval < elapsed m → j ≤ m := by
  obtain ⟨j, hj1, hj2, hjm, hje, hrunz, hminz⟩ :=
    zen4_loop_first_exit interval elapsed k 0 ⟨k, hk0, by omega, hkm, hke⟩
  obtain ⟨j2, hq1, hq2, hqm, hqe, hrund, hmind⟩ :=
    dual_loop_first_exit interval elapsed k 0 ⟨k, hk0, by omega, hkm, hke⟩
  have hjj : j = j2 := by
    rcases Nat.lt_trichotomy j j2 with h | h | h
    · exact absurd ⟨hjm, hje⟩ (hmind j hj1 h)
    · exact h
    · exact absurd ⟨hqm, hqe⟩ (hminz j2 hq1 h)
  refine ⟨j, hj1, hjm, by omega, hje, hrunz, hjj ▸ hrund, ?_⟩
  intro m hm0 hmm hme
  by_contra hlt
  exact hminz m hm0 (by omega) ⟨hmm, hme⟩

/-- C7 witness: with interval 0 and wall clock elapsed i = i, both loops
run with fuel 100000 from iteration 0 exit at the first refresh check. -/
theorem mining_loops_exit_witness :
    0 < 100000 ∧ 100000 % 100000 = 0 ∧ 0 < (fun i : Nat => i) 100000
    ∧ ∃ j, 0 < j ∧ j % 100000 = 0 ∧ j ≤ 100000 ∧ 0 < (fun i : Nat => i) j
      ∧ zen4_optimized_mining_loop true 0 (fun i : Nat => i) 100000 0 = some j
      ∧ dual_socket_mining_loop true 0 (fun i : Nat => i) 100000 0 = some j
      ∧ ∀ m, 0 < m → m % 100000 = 0 → 0 < (fun i : Nat => i) m → j ≤ m :=
  ⟨by decide, by decide, by decide,
   mining_loops_exit_at_first_refresh_check 0 (fun i => i) 100000
     (by decide) (by decide) (by decide)⟩

end Nockchain
